import Mathlib

/-!
# Ledger lifecycle harness of the QLDB Go driver integration tests

A shallow embedding of `integration/integration_base.go`: the `testBase`
lifecycle controller (`createLedger`, `deleteLedger`, `waitForActive`,
`waitForDeletion`) and the option function that `getDriver` hands to the
driver constructor.

Remote calls, log lines, sleeps and test failures are recorded, in the order
in which the Go code performs them, in a trace of `Event`s that is passed
from statement to statement.  The `qldb` client is a script of responses.
The two `for true { ... }` loops take a bound on the number of iterations;
running past the bound is reported as `Status.outOfFuel`, which is not a
return of the Go function.
-/

namespace Integration

/-! ## Data model -/

/-- Modelled from the spec: the severity of a log record, an ordered
enumeration whose declaration (`LogInfo` of the integration package and of
`qldbdriver`) is not among the sources. -/
inductive LogLevel where
  | LogOff
  | LogInfo
  | LogDebug
  deriving DecidableEq, Repr

/-- Position of a level in the order `LogOff < LogInfo < LogDebug`. -/
def LogLevel.rank : LogLevel → Nat
  | .LogOff => 0
  | .LogInfo => 1
  | .LogDebug => 2

/-- An `error` value returned by the `qldb` client.  `resourceNotFound` tells
whether its dynamic type is `*qldb.ResourceNotFoundException` (what the type
assertion `err.(*qldb.ResourceNotFoundException)` tests), `text` is the result
of `err.Error()`. -/
structure Err where
  resourceNotFound : Bool
  text : String
  deriving DecidableEq, Repr

/-- The `*qldb.DescribeLedgerOutput` fields the harness reads: `State` is a
`*string`, so it may be nil (`none`). -/
structure DescribeLedgerOutput where
  State : Option String
  deriving DecidableEq, Repr

/-- The `qldb` client as the harness sees it: the error returned by each of
the create, update and delete requests (`none` is a nil error), and the pair
`(output, err)` returned by the `i`-th call of `DescribeLedger`, counted
from 0.  The output pointer may be nil (`none`). -/
structure Client where
  CreateLedger : Option Err
  UpdateLedger : Option Err
  DeleteLedger : Option Err
  DescribeLedger : Nat → Option DescribeLedgerOutput × Option Err

/-- One observable effect of the harness. -/
inductive Event where
  | logged (message : String)
  | createLedgerCall (name : String) (deletionProtection : Bool) (permissionsMode : String)
  | updateLedgerCall (name : String) (deletionProtection : Bool)
  | deleteLedgerCall (name : String)
  | describeLedgerCall (name : String)
  | slept (nanoseconds : Nat)
  | assertNilFailed (err : Err)
  | testErrorf (message : String)
  deriving DecidableEq, Repr

/-- How a run of a harness function ends: it returns, it panics on a nil
pointer dereference, or it is still looping when the iteration bound is
reached. -/
inductive Status where
  | returned
  | panicked
  | outOfFuel
  deriving DecidableEq, Repr

/-- The end of a run together with everything it did. -/
structure Result where
  status : Status
  trace : List Event
  deriving DecidableEq, Repr

/-- Modelled from the spec: the `testLogger` struct, declared outside the
sources and built in `createTestBase` as `testLogger{&defaultLogger{}, LogInfo}`:
the wrapped driver logger (identified by a number) and the configured
verbosity. -/
structure testLogger where
  logger : Nat
  verbosity : LogLevel
  deriving DecidableEq, Repr

/-- The `testBase` struct without its `qldb` client, which the functions
below take as a separate `Client` argument. -/
structure testBase where
  ledgerName : String
  regionName : String
  logger : testLogger
  deriving DecidableEq, Repr

/-- Modelled from the spec: the configuration surface of the driver,
`qldbdriver.DriverOptions`, declared outside the sources: logger, logger
verbosity, `maxConcurrentTransactions` (a `uint16` in `getDriver`) and
`retryLimit` (a `uint8` in `getDriver`). -/
structure DriverOptions where
  Logger : Nat
  LoggerVerbosity : LogLevel
  MaxConcurrentTransactions : Nat
  RetryLimit : Nat
  deriving DecidableEq, Repr

/-! ## Constants -/

def ledger : String := "Gotest"

def region : String := "us-east-1"

/-- The identity of the `&defaultLogger{}` created in `createTestBase`. -/
def defaultLogger : Nat := 0

/-- The duration `time.Second`, in nanoseconds. -/
def Second : Nat := 1000000000

def msgWaitingActive : String := "Waiting for ledger to become active..."

def msgSuccess : String := "Success. Ledger is active and ready to use."

def msgStillCreating : String := "The ledger is still creating. Please wait..."

def msgWaitingDeleted : String := "Waiting for ledger to be deleted..."

def msgStillDeleting : String := "The ledger is still deleting. Please wait..."

def msgDeleted : String := "The ledger is deleted"

def msgNotFound : String := "Encountered resource not found"

def msgDeletionError : String := "Encountered error during deletion"

def msgFailingTest : String := "Failing test due to deletion failure"

/-! ## Operations -/

/-- Modelled from the spec: the method `testLogger.log(message, level)`, whose
file is not among the sources.  The sink filters by the configured verbosity
and delivers the message before the call returns. -/
def testLogger.log (l : testLogger) (message : String) (level : LogLevel)
    (tr : List Event) : List Event :=
  if level.rank ≤ l.verbosity.rank then tr ++ [Event.logged message] else tr

/-- The function `createTestBase`, without the session and client set-up. -/
def createTestBase : testBase :=
  { ledgerName := ledger, regionName := region,
    logger := { logger := defaultLogger, verbosity := LogLevel.LogInfo } }

/-- The loop of `waitForActive`: `k` is the number of describe calls issued
so far, `tr` the trace so far. -/
def waitForActiveLoop (tb : testBase) (c : Client) : Nat → Nat → List Event → Result
  | 0, _, tr => { status := Status.outOfFuel, trace := tr }
  | fuel + 1, k, tr =>
    let tr1 := tr ++ [Event.describeLedgerCall tb.ledgerName]
    match (c.DescribeLedger k).1 with
    | none => { status := Status.panicked, trace := tr1 }
    | some output =>
      match output.State with
      | none => { status := Status.panicked, trace := tr1 }
      | some state =>
        if state = "ACTIVE" then
          { status := Status.returned,
            trace := tb.logger.log msgSuccess LogLevel.LogInfo tr1 }
        else
          let tr2 := tb.logger.log msgStillCreating LogLevel.LogInfo tr1
          let tr3 := tr2 ++ [Event.slept (5 * Second)]
          waitForActiveLoop tb c fuel (k + 1) tr3

/-- The method `waitForActive`, run for at most `fuel` iterations after the
trace `tr`. -/
def waitForActive (tb : testBase) (c : Client) (fuel : Nat) (tr : List Event) : Result :=
  waitForActiveLoop tb c fuel 0 (tb.logger.log msgWaitingActive LogLevel.LogInfo tr)

/-- The loop of `waitForDeletion`: `k` is the number of describe calls issued
so far, `tr` the trace so far. -/
def waitForDeletionLoop (tb : testBase) (c : Client) : Nat → Nat → List Event → Result
  | 0, _, tr => { status := Status.outOfFuel, trace := tr }
  | fuel + 1, k, tr =>
    let tr1 := tr ++ [Event.describeLedgerCall tb.ledgerName]
    let tr2 := tb.logger.log msgStillDeleting LogLevel.LogInfo tr1
    match (c.DescribeLedger k).2 with
    | some err =>
      if err.resourceNotFound then
        { status := Status.returned,
          trace := tb.logger.log msgDeleted LogLevel.LogInfo tr2 }
      else
        waitForDeletionLoop tb c fuel (k + 1) (tr2 ++ [Event.slept (5 * Second)])
    | none =>
      waitForDeletionLoop tb c fuel (k + 1) (tr2 ++ [Event.slept (5 * Second)])

/-- The method `waitForDeletion`, run for at most `fuel` iterations after the
trace `tr`. -/
def waitForDeletion (tb : testBase) (c : Client) (fuel : Nat) (tr : List Event) : Result :=
  waitForDeletionLoop tb c fuel 0 (tb.logger.log msgWaitingDeleted LogLevel.LogInfo tr)

/-- The call `assert.Nil(t, err)`: a non-nil error is recorded as a failure
of the test, and execution goes on. -/
def assertNil (err : Option Err) (tr : List Event) : List Event :=
  match err with
  | none => tr
  | some e => tr ++ [Event.assertNilFailed e]

/-- The method `createLedger`. -/
def createLedger (tb : testBase) (c : Client) (fuel : Nat) : Result :=
  let tr0 := tb.logger.log ("Creating ledger named " ++ tb.ledgerName ++ " ...")
    LogLevel.LogInfo []
  let tr1 := tr0 ++ [Event.createLedgerCall tb.ledgerName false "ALLOW_ALL"]
  let tr2 := assertNil c.CreateLedger tr1
  waitForActive tb c fuel tr2

/-- The method `deleteLedger`. -/
def deleteLedger (tb : testBase) (c : Client) (fuel : Nat) : Result :=
  let tr0 := tb.logger.log ("Deleting ledger " ++ tb.ledgerName) LogLevel.LogInfo []
  let tr1 := tr0 ++ [Event.updateLedgerCall tb.ledgerName false]
  let tr2 := tr1 ++ [Event.deleteLedgerCall tb.ledgerName]
  match c.DeleteLedger with
  | some err =>
    if err.resourceNotFound then
      { status := Status.returned,
        trace := tb.logger.log msgNotFound LogLevel.LogInfo tr2 }
    else
      let tr3 := tb.logger.log msgDeletionError LogLevel.LogInfo tr2
      let tr4 := tb.logger.log err.text LogLevel.LogInfo tr3
      let tr5 := tr4 ++ [Event.testErrorf msgFailingTest]
      waitForDeletion tb c fuel tr5
  | none => waitForDeletion tb c fuel tr2

/-- The option function that `getDriver` passes to `qldbdriver.New`, as a
function from the options it is applied to to the options it leaves. -/
def getDriver (tb : testBase) (ledgerName : String) (maxConcurrentTransactions : Nat)
    (retryLimit : Nat) (options : DriverOptions) : DriverOptions :=
  let _unusedName := ledgerName
  let _unusedRetryLimit := retryLimit
  { options with
    Logger := tb.logger.logger
    LoggerVerbosity := LogLevel.LogInfo
    MaxConcurrentTransactions := maxConcurrentTransactions }

/-! ## Observations on a trace -/

def isDescribe : Event → Bool
  | .describeLedgerCall _ => true
  | _ => false

/-- Number of describe calls issued. -/
def describeCalls (tr : List Event) : Nat := tr.countP isDescribe

/-- The sleeps performed, in order, each with its duration. -/
def sleeps (tr : List Event) : List Nat :=
  tr.filterMap fun e => match e with
    | .slept d => some d
    | _ => none

/-- The log: the messages delivered to the sink, in order. -/
def logLines (tr : List Event) : List String :=
  tr.filterMap fun e => match e with
    | .logged m => some m
    | _ => none

def isFailure : Event → Bool
  | .assertNilFailed _ => true
  | .testErrorf _ => true
  | _ => false

/-- Whether the surrounding test has been marked failed, `t.Failed()`. -/
def failed (tr : List Event) : Bool := tr.any isFailure

/-- A log line that starts with the word "Success". -/
def isSuccessLine (m : String) : Bool := "Success".toList.isPrefixOf m.toList

/-- Number of "Success" lines of the log. -/
def successLines (tr : List Event) : Nat := (logLines tr).countP isSuccessLine

/-- Whether an error value is non-nil and is a resource-not-found exception:
the test `err != nil` followed by the type assertion
`err.(*qldb.ResourceNotFoundException)`. -/
def isNotFound : Option Err → Bool
  | some e => e.resourceNotFound
  | none => false

/-! ## Test doubles -/

/-- A client whose create request succeeds and whose describe reports
`CREATING` twice and `ACTIVE` from then on. -/
def fakeCreatingTwice : Client :=
  { CreateLedger := none, UpdateLedger := none, DeleteLedger := none,
    DescribeLedger := fun i =>
      if i < 2 then (some { State := some "CREATING" }, none)
      else (some { State := some "ACTIVE" }, none) }

/-- A client whose delete request succeeds and whose describe reports the
ledger as `DELETING` twice and as not found from then on. -/
def fakeDeletingTwice : Client :=
  { CreateLedger := none, UpdateLedger := none, DeleteLedger := none,
    DescribeLedger := fun i =>
      if i < 2 then (some { State := some "DELETING" }, none)
      else (some { State := none },
        some { resourceNotFound := true, text := "ResourceNotFoundException" }) }

/-- A client on which the ledger is already absent: update and delete both
return resource-not-found. -/
def fakeAlreadyAbsent : Client :=
  { CreateLedger := none,
    UpdateLedger := some { resourceNotFound := true, text := "ResourceNotFoundException" },
    DeleteLedger := some { resourceNotFound := true, text := "ResourceNotFoundException" },
    DescribeLedger := fun _ =>
      (some { State := none },
        some { resourceNotFound := true, text := "ResourceNotFoundException" }) }

/-- A client whose create request is refused, while describe reports an
`ACTIVE` ledger. -/
def fakeCreateRefused : Client :=
  { CreateLedger := some { resourceNotFound := false, text := "ResourceAlreadyExistsException" },
    UpdateLedger := none, DeleteLedger := none,
    DescribeLedger := fun _ => (some { State := some "ACTIVE" }, none) }

/-- A client whose delete request is refused with an error other than
resource-not-found, while describe reports the ledger as not found. -/
def fakeDeleteRefused : Client :=
  { CreateLedger := none, UpdateLedger := none,
    DeleteLedger := some { resourceNotFound := false, text := "ResourceInUseException" },
    DescribeLedger := fun _ =>
      (some { State := none },
        some { resourceNotFound := true, text := "ResourceNotFoundException" }) }

/-- A client whose first describe call fails, leaving no state in the output,
and whose later describe calls report `ACTIVE`. -/
def fakeDescribeErrorOnce : Client :=
  { CreateLedger := none, UpdateLedger := none, DeleteLedger := none,
    DescribeLedger := fun i =>
      if i < 1 then
        (some { State := none }, some { resourceNotFound := false, text := "ThrottlingException" })
      else (some { State := some "ACTIVE" }, none) }

/-- The options the driver starts from in the pass-through check. -/
def sampleOptions : DriverOptions :=
  { Logger := 7, LoggerVerbosity := LogLevel.LogOff, MaxConcurrentTransactions := 50,
    RetryLimit := 4 }

/-! ## Lemmas on traces -/

theorem log_info (m : String) (tr : List Event) :
    createTestBase.logger.log m LogLevel.LogInfo tr = tr ++ [Event.logged m] := by
  simp [testLogger.log, createTestBase, LogLevel.rank]

theorem describeCalls_append (a b : List Event) :
    describeCalls (a ++ b) = describeCalls a + describeCalls b := by
  simp [describeCalls, List.countP_append]

theorem sleeps_append (a b : List Event) : sleeps (a ++ b) = sleeps a ++ sleeps b := by
  simp [sleeps, List.filterMap_append]

theorem logLines_append (a b : List Event) : logLines (a ++ b) = logLines a ++ logLines b := by
  simp [logLines, List.filterMap_append]

theorem successLines_append (a b : List Event) :
    successLines (a ++ b) = successLines a + successLines b := by
  simp [successLines, logLines_append, List.countP_append]

theorem failed_append (a b : List Event) : failed (a ++ b) = (failed a || failed b) := by
  simp [failed, List.any_append]

/-! ## The loop of `waitForActive` -/

theorem waitForActiveLoop_pending (c : Client) (fuel k : Nat) (tr : List Event) (s : String)
    (h : (c.DescribeLedger k).1 = some { State := some s }) (hs : s ≠ "ACTIVE") :
    waitForActiveLoop createTestBase c (fuel + 1) k tr =
      waitForActiveLoop createTestBase c fuel (k + 1)
        (tr ++ [Event.describeLedgerCall ledger, Event.logged msgStillCreating,
          Event.slept (5 * Second)]) := by
  simp [waitForActiveLoop, h, hs, log_info]
  rfl

theorem waitForActiveLoop_active (c : Client) (fuel k : Nat) (tr : List Event)
    (h : (c.DescribeLedger k).1 = some { State := some "ACTIVE" }) :
    waitForActiveLoop createTestBase c (fuel + 1) k tr =
      { status := Status.returned,
        trace := tr ++ [Event.describeLedgerCall ledger, Event.logged msgSuccess] } := by
  simp [waitForActiveLoop, h, log_info]
  rfl

theorem waitForActiveLoop_polls (c : Client) (N : Nat) :
    ∀ (fuel k : Nat) (tr : List Event),
      (∀ i, i < N → ∃ s, s ≠ "ACTIVE" ∧ (c.DescribeLedger (k + i)).1 = some { State := some s }) →
      (c.DescribeLedger (k + N)).1 = some { State := some "ACTIVE" } →
      (fuel ≤ N → (waitForActiveLoop createTestBase c fuel k tr).status = Status.outOfFuel) ∧
      (N < fuel →
        (waitForActiveLoop createTestBase c fuel k tr).status = Status.returned ∧
        describeCalls (waitForActiveLoop createTestBase c fuel k tr).trace
          = describeCalls tr + (N + 1) ∧
        sleeps (waitForActiveLoop createTestBase c fuel k tr).trace
          = sleeps tr ++ List.replicate N (5 * Second) ∧
        successLines (waitForActiveLoop createTestBase c fuel k tr).trace
          = successLines tr + 1 ∧
        failed (waitForActiveLoop createTestBase c fuel k tr).trace = failed tr) := by
  induction N with
  | zero =>
    intro fuel k tr _ hact
    refine ⟨fun hf => ?_, fun hf => ?_⟩
    · obtain rfl : fuel = 0 := by omega
      rfl
    · obtain ⟨f, rfl⟩ : ∃ f, fuel = f + 1 := ⟨fuel - 1, by omega⟩
      rw [waitForActiveLoop_active c f k tr (by simpa using hact)]
      refine ⟨rfl, ?_, ?_, ?_, ?_⟩
      · rw [describeCalls_append]; rfl
      · rw [sleeps_append]; simp [sleeps]
      · rw [successLines_append]; rfl
      · rw [failed_append]; simp [failed, isFailure]
  | succ n ih =>
    intro fuel k tr hpen hact
    cases fuel with
    | zero => exact ⟨fun _ => rfl, fun hf => absurd hf (by omega)⟩
    | succ f =>
      obtain ⟨s, hs, h0⟩ := hpen 0 (by omega)
      rw [waitForActiveLoop_pending c f k tr s (by simpa using h0) hs]
      have hpen2 : ∀ i, i < n → ∃ s, s ≠ "ACTIVE" ∧
          (c.DescribeLedger (k + 1 + i)).1 = some { State := some s } := by
        intro i hi
        have := hpen (i + 1) (by omega)
        rwa [show k + (i + 1) = k + 1 + i by omega] at this
      have hact2 : (c.DescribeLedger (k + 1 + n)).1 = some { State := some "ACTIVE" } := by
        rwa [show k + (n + 1) = k + 1 + n by omega] at hact
      obtain ⟨ihz, ihs⟩ := ih f (k + 1) _ hpen2 hact2
      refine ⟨fun hf => ihz (by omega), fun hf => ?_⟩
      obtain ⟨h1, h2, h3, h4, h5⟩ := ihs (by omega)
      refine ⟨h1, ?_, ?_, ?_, ?_⟩
      · rw [h2, describeCalls_append]
        have : describeCalls [Event.describeLedgerCall ledger, Event.logged msgStillCreating,
          Event.slept (5 * Second)] = 1 := rfl
        omega
      · rw [h3, sleeps_append]
        simp [sleeps, List.replicate_succ]
      · rw [h4, successLines_append]; rfl
      · rw [h5, failed_append]; simp [failed, isFailure]

/-- Whatever the describe responses, the loop of `waitForActive` only adds to
the trace, and its first iteration issues a describe call. -/
theorem waitForActiveLoop_extends (c : Client) :
    ∀ (fuel k : Nat) (tr : List Event), ∃ ext,
      (waitForActiveLoop createTestBase c fuel k tr).trace = tr ++ ext ∧
      (0 < fuel → 0 < describeCalls ext) := by
  intro fuel
  induction fuel with
  | zero => intro k tr; exact ⟨[], by simp [waitForActiveLoop], by omega⟩
  | succ f ih =>
    intro k tr
    cases h1 : (c.DescribeLedger k).1 with
    | none =>
      exact ⟨[Event.describeLedgerCall ledger], by simp [waitForActiveLoop, h1]; rfl,
        fun _ => by decide⟩
    | some out =>
      obtain ⟨st⟩ := out
      cases st with
      | none =>
        exact ⟨[Event.describeLedgerCall ledger], by simp [waitForActiveLoop, h1]; rfl,
          fun _ => by decide⟩
      | some s =>
        by_cases hs : s = "ACTIVE"
        · subst hs
          rw [waitForActiveLoop_active c f k tr h1]
          exact ⟨_, rfl, fun _ => by decide⟩
        · rw [waitForActiveLoop_pending c f k tr s h1 hs]
          obtain ⟨ext, he, _⟩ := ih (k + 1)
            (tr ++ [Event.describeLedgerCall ledger, Event.logged msgStillCreating,
              Event.slept (5 * Second)])
          refine ⟨[Event.describeLedgerCall ledger, Event.logged msgStillCreating,
              Event.slept (5 * Second)] ++ ext, by rw [he, List.append_assoc], fun _ => ?_⟩
          rw [describeCalls_append]
          have : describeCalls [Event.describeLedgerCall ledger, Event.logged msgStillCreating,
            Event.slept (5 * Second)] = 1 := rfl
          omega

/-! ## The loop of `waitForDeletion` -/

theorem waitForDeletionLoop_found (c : Client) (fuel k : Nat) (tr : List Event)
    (h : isNotFound (c.DescribeLedger k).2 = true) :
    waitForDeletionLoop createTestBase c (fuel + 1) k tr =
      { status := Status.returned,
        trace := tr ++ [Event.describeLedgerCall ledger, Event.logged msgStillDeleting,
          Event.logged msgDeleted] } := by
  cases h2 : (c.DescribeLedger k).2 with
  | none => simp [h2, isNotFound] at h
  | some e =>
    have he : e.resourceNotFound = true := by simpa [h2, isNotFound] using h
    simp [waitForDeletionLoop, h2, he, log_info]
    rfl

theorem waitForDeletionLoop_retry (c : Client) (fuel k : Nat) (tr : List Event)
    (h : isNotFound (c.DescribeLedger k).2 = false) :
    waitForDeletionLoop createTestBase c (fuel + 1) k tr =
      waitForDeletionLoop createTestBase c fuel (k + 1)
        (tr ++ [Event.describeLedgerCall ledger, Event.logged msgStillDeleting,
          Event.slept (5 * Second)]) := by
  cases h2 : (c.DescribeLedger k).2 with
  | none =>
    simp [waitForDeletionLoop, h2, log_info]
    rfl
  | some e =>
    have he : e.resourceNotFound = false := by simpa [h2, isNotFound] using h
    simp [waitForDeletionLoop, h2, he, log_info]
    rfl

theorem waitForDeletionLoop_polls (c : Client) (M : Nat) :
    ∀ (fuel k : Nat) (tr : List Event),
      (∀ i, i < M → isNotFound (c.DescribeLedger (k + i)).2 = false) →
      isNotFound (c.DescribeLedger (k + M)).2 = true →
      (fuel ≤ M → (waitForDeletionLoop createTestBase c fuel k tr).status = Status.outOfFuel) ∧
      (M < fuel →
        (waitForDeletionLoop createTestBase c fuel k tr).status = Status.returned ∧
        describeCalls (waitForDeletionLoop createTestBase c fuel k tr).trace
          = describeCalls tr + (M + 1) ∧
        sleeps (waitForDeletionLoop createTestBase c fuel k tr).trace
          = sleeps tr ++ List.replicate M (5 * Second)) := by
  induction M with
  | zero =>
    intro fuel k tr _ hnf
    refine ⟨fun hf => ?_, fun hf => ?_⟩
    · obtain rfl : fuel = 0 := by omega
      rfl
    · obtain ⟨f, rfl⟩ : ∃ f, fuel = f + 1 := ⟨fuel - 1, by omega⟩
      rw [waitForDeletionLoop_found c f k tr (by simpa using hnf)]
      refine ⟨rfl, ?_, ?_⟩
      · rw [describeCalls_append]; rfl
      · rw [sleeps_append]; simp [sleeps]
  | succ n ih =>
    intro fuel k tr hpen hnf
    cases fuel with
    | zero => exact ⟨fun _ => rfl, fun hf => absurd hf (by omega)⟩
    | succ f =>
      rw [waitForDeletionLoop_retry c f k tr (by simpa using hpen 0 (by omega))]
      have hpen2 : ∀ i, i < n → isNotFound (c.DescribeLedger (k + 1 + i)).2 = false := by
        intro i hi
        have := hpen (i + 1) (by omega)
        rwa [show k + (i + 1) = k + 1 + i by omega] at this
      have hnf2 : isNotFound (c.DescribeLedger (k + 1 + n)).2 = true := by
        rwa [show k + (n + 1) = k + 1 + n by omega] at hnf
      obtain ⟨ihz, ihs⟩ := ih f (k + 1) _ hpen2 hnf2
      refine ⟨fun hf => ihz (by omega), fun hf => ?_⟩
      obtain ⟨h1, h2, h3⟩ := ihs (by omega)
      refine ⟨h1, ?_, ?_⟩
      · rw [h2, describeCalls_append]
        have : describeCalls [Event.describeLedgerCall ledger, Event.logged msgStillDeleting,
          Event.slept (5 * Second)] = 1 := rfl
        omega
      · rw [h3, sleeps_append]
        simp [sleeps, List.replicate_succ]

/-- When the loop of `waitForDeletion` returns, the last describe call it
issued returned resource-not-found. -/
theorem waitForDeletionLoop_returned (c : Client) :
    ∀ (fuel k : Nat) (tr : List Event), describeCalls tr = k →
      (waitForDeletionLoop createTestBase c fuel k tr).status = Status.returned →
      ∃ n, describeCalls (waitForDeletionLoop createTestBase c fuel k tr).trace = n + 1 ∧
        isNotFound (c.DescribeLedger n).2 = true := by
  intro fuel
  induction fuel with
  | zero => intro k tr _ h; simp [waitForDeletionLoop] at h
  | succ f ih =>
    intro k tr hk h
    cases hnf : isNotFound (c.DescribeLedger k).2 with
    | true =>
      rw [waitForDeletionLoop_found c f k tr hnf]
      refine ⟨k, ?_, hnf⟩
      show describeCalls (tr ++ _) = k + 1
      rw [describeCalls_append, hk]; rfl
    | false =>
      rw [waitForDeletionLoop_retry c f k tr hnf] at h ⊢
      refine ih (k + 1) _ ?_ h
      rw [describeCalls_append, hk]; rfl

/-- Whatever the describe responses, the loop of `waitForDeletion` only adds
to the trace, adds no test failure, never panics, and its first iteration
issues a describe call. -/
theorem waitForDeletionLoop_extends (c : Client) :
    ∀ (fuel k : Nat) (tr : List Event), ∃ ext,
      (waitForDeletionLoop createTestBase c fuel k tr).trace = tr ++ ext ∧
      failed ext = false ∧
      (waitForDeletionLoop createTestBase c fuel k tr).status ≠ Status.panicked ∧
      (0 < fuel → 0 < describeCalls ext) := by
  intro fuel
  induction fuel with
  | zero =>
    intro k tr
    exact ⟨[], by simp [waitForDeletionLoop], rfl, by simp [waitForDeletionLoop], by omega⟩
  | succ f ih =>
    intro k tr
    cases hnf : isNotFound (c.DescribeLedger k).2 with
    | true =>
      rw [waitForDeletionLoop_found c f k tr hnf]
      exact ⟨_, rfl, by decide, by simp, fun _ => by decide⟩
    | false =>
      rw [waitForDeletionLoop_retry c f k tr hnf]
      obtain ⟨ext, he, hf, hp, _⟩ := ih (k + 1)
        (tr ++ [Event.describeLedgerCall ledger, Event.logged msgStillDeleting,
          Event.slept (5 * Second)])
      refine ⟨[Event.describeLedgerCall ledger, Event.logged msgStillDeleting,
          Event.slept (5 * Second)] ++ ext, by rw [he, List.append_assoc], ?_, hp, fun _ => ?_⟩
      · rw [failed_append, hf]; rfl
      · rw [describeCalls_append]
        have : describeCalls [Event.describeLedgerCall ledger, Event.logged msgStillDeleting,
          Event.slept (5 * Second)] = 1 := rfl
        omega

/-! ## `createLedger` and `deleteLedger` unfolded -/

theorem createLedger_eq (c : Client) (fuel : Nat) :
    createLedger createTestBase c fuel =
      waitForActiveLoop createTestBase c fuel 0
        (assertNil c.CreateLedger
          [Event.logged "Creating ledger named Gotest ...",
            Event.createLedgerCall ledger false "ALLOW_ALL"] ++
          [Event.logged msgWaitingActive]) := by
  simp only [createLedger, waitForActive, log_info]
  rfl

theorem deleteLedger_not_found (c : Client) (fuel : Nat)
    (h : isNotFound c.DeleteLedger = true) :
    deleteLedger createTestBase c fuel =
      { status := Status.returned,
        trace := [Event.logged "Deleting ledger Gotest", Event.updateLedgerCall ledger false,
          Event.deleteLedgerCall ledger, Event.logged msgNotFound] } := by
  cases h2 : c.DeleteLedger with
  | none => simp [h2, isNotFound] at h
  | some e =>
    have he : e.resourceNotFound = true := by simpa [h2, isNotFound] using h
    simp [deleteLedger, h2, he, log_info]
    exact ⟨by decide, rfl⟩

theorem deleteLedger_success (c : Client) (fuel : Nat) (h : c.DeleteLedger = none) :
    deleteLedger createTestBase c fuel =
      waitForDeletionLoop createTestBase c fuel 0
        [Event.logged "Deleting ledger Gotest", Event.updateLedgerCall ledger false,
          Event.deleteLedgerCall ledger, Event.logged msgWaitingDeleted] := by
  simp [deleteLedger, waitForDeletion, h, log_info]
  rfl

theorem deleteLedger_other_error (c : Client) (fuel : Nat) (e : Err)
    (h : c.DeleteLedger = some e) (he : e.resourceNotFound = false) :
    deleteLedger createTestBase c fuel =
      waitForDeletionLoop createTestBase c fuel 0
        [Event.logged "Deleting ledger Gotest", Event.updateLedgerCall ledger false,
          Event.deleteLedgerCall ledger, Event.logged msgDeletionError, Event.logged e.text,
          Event.testErrorf msgFailingTest, Event.logged msgWaitingDeleted] := by
  simp [deleteLedger, waitForDeletion, h, he, log_info]
  rfl

/-! ## The blocking contract of `createLedger` -/

/-- C1: when the create request succeeds and describe reports a state other
than `ACTIVE` on its first `N` calls and `ACTIVE` on call `N + 1`, then
`createLedger` has not returned while at most `N` polls have been made, and
once the loop is allowed more than `N` iterations it returns after exactly
`N + 1` describe calls and exactly `N` sleeps of 5 seconds each, with exactly
one "Success" line in the log and the test not marked failed.  The error
component of the first `N + 1` describe responses is not constrained, since
`waitForActive` discards it. -/
theorem createLedger_waits_until_active (c : Client) (N : Nat)
    (hcreate : c.CreateLedger = none)
    (hpending : ∀ i, i < N →
      ∃ s, s ≠ "ACTIVE" ∧ (c.DescribeLedger i).1 = some { State := some s })
    (hactive : (c.DescribeLedger N).1 = some { State := some "ACTIVE" }) :
    (∀ fuel, fuel ≤ N → (createLedger createTestBase c fuel).status = Status.outOfFuel) ∧
    (∀ fuel, N < fuel →
      (createLedger createTestBase c fuel).status = Status.returned ∧
      describeCalls (createLedger createTestBase c fuel).trace = N + 1 ∧
      sleeps (createLedger createTestBase c fuel).trace = List.replicate N (5 * Second) ∧
      successLines (createLedger createTestBase c fuel).trace = 1 ∧
      failed (createLedger createTestBase c fuel).trace = false) := by
  have key := fun fuel => waitForActiveLoop_polls c N fuel 0
    ([Event.logged "Creating ledger named Gotest ...",
      Event.createLedgerCall ledger false "ALLOW_ALL"] ++ [Event.logged msgWaitingActive])
    (by simpa using hpending) (by simpa using hactive)
  refine ⟨fun fuel hf => ?_, fun fuel hf => ?_⟩
  · rw [createLedger_eq, hcreate]
    exact (key fuel).1 hf
  · rw [createLedger_eq, hcreate]
    obtain ⟨h1, h2, h3, h4, h5⟩ := (key fuel).2 hf
    refine ⟨h1, ?_, ?_, ?_, ?_⟩
    · simpa [assertNil, describeCalls, isDescribe] using h2
    · simpa [assertNil, sleeps] using h3
    · rw [show assertNil none
        [Event.logged "Creating ledger named Gotest ...",
          Event.createLedgerCall ledger false "ALLOW_ALL"] =
        [Event.logged "Creating ledger named Gotest ...",
          Event.createLedgerCall ledger false "ALLOW_ALL"] from rfl, h4]
      decide
    · simpa [assertNil, failed, isFailure] using h5

/-- C1, on the script `CREATING, CREATING, ACTIVE`: three describe calls, two
sleeps of 5 seconds, one "Success" line. -/
theorem createLedger_waits_until_active_witness :
    (createLedger createTestBase fakeCreatingTwice 3).status = Status.returned ∧
    describeCalls (createLedger createTestBase fakeCreatingTwice 3).trace = 2 + 1 ∧
    sleeps (createLedger createTestBase fakeCreatingTwice 3).trace
      = List.replicate 2 (5 * Second) ∧
    successLines (createLedger createTestBase fakeCreatingTwice 3).trace = 1 ∧
    failed (createLedger createTestBase fakeCreatingTwice 3).trace = false :=
  (createLedger_waits_until_active fakeCreatingTwice 2 rfl
    (fun i hi => ⟨"CREATING", by decide, by simp [fakeCreatingTwice, hi]⟩) rfl).2 3 (by decide)

/-! ## The blocking contract of `waitForDeletion` -/

/-- C2: when describe does not return resource-not-found on its first `M`
calls (in particular when it succeeds because the ledger still exists) and
returns resource-not-found on call `M + 1`, then `waitForDeletion` has not
returned while at most `M` polls have been made, and once the loop is allowed
more than `M` iterations it returns after exactly `M + 1` describe calls and
exactly `M` sleeps of 5 seconds each. -/
theorem waitForDeletion_waits_until_not_found (c : Client) (M : Nat)
    (hexists : ∀ i, i < M → isNotFound (c.DescribeLedger i).2 = false)
    (hgone : isNotFound (c.DescribeLedger M).2 = true) :
    (∀ fuel, fuel ≤ M →
      (waitForDeletion createTestBase c fuel []).status = Status.outOfFuel) ∧
    (∀ fuel, M < fuel →
      (waitForDeletion createTestBase c fuel []).status = Status.returned ∧
      describeCalls (waitForDeletion createTestBase c fuel []).trace = M + 1 ∧
      sleeps (waitForDeletion createTestBase c fuel []).trace
        = List.replicate M (5 * Second)) := by
  have key := fun fuel => waitForDeletionLoop_polls c M fuel 0 [Event.logged msgWaitingDeleted]
    (by simpa using hexists) (by simpa using hgone)
  have hunfold : ∀ fuel, waitForDeletion createTestBase c fuel [] =
      waitForDeletionLoop createTestBase c fuel 0 [Event.logged msgWaitingDeleted] := by
    intro fuel
    simp [waitForDeletion, log_info]
  refine ⟨fun fuel hf => ?_, fun fuel hf => ?_⟩
  · rw [hunfold]
    exact (key fuel).1 hf
  · rw [hunfold]
    obtain ⟨h1, h2, h3⟩ := (key fuel).2 hf
    refine ⟨h1, ?_, ?_⟩
    · simpa [describeCalls, isDescribe] using h2
    · simpa [sleeps] using h3

/-- C2, on the script `exists, exists, not found`: three describe calls and
two sleeps of 5 seconds. -/
theorem waitForDeletion_waits_until_not_found_witness :
    (waitForDeletion createTestBase fakeDeletingTwice 3 []).status = Status.returned ∧
    describeCalls (waitForDeletion createTestBase fakeDeletingTwice 3 []).trace = 2 + 1 ∧
    sleeps (waitForDeletion createTestBase fakeDeletingTwice 3 []).trace
      = List.replicate 2 (5 * Second) :=
  (waitForDeletion_waits_until_not_found fakeDeletingTwice 2
    (fun i hi => by simp [fakeDeletingTwice, hi, isNotFound]) rfl).2 3 (by decide)

/-! ## `deleteLedger` -/

/-- C3: whenever the delete request returns a resource-not-found error,
whatever the update call returned, `deleteLedger` returns without marking the
test failed, issues no describe call and no sleep, does not enter the wait
loop, and logs the not-found message exactly once. -/
theorem deleteLedger_idempotent (c : Client) (fuel : Nat)
    (hdel : isNotFound c.DeleteLedger = true) :
    (deleteLedger createTestBase c fuel).status = Status.returned ∧
    failed (deleteLedger createTestBase c fuel).trace = false ∧
    describeCalls (deleteLedger createTestBase c fuel).trace = 0 ∧
    sleeps (deleteLedger createTestBase c fuel).trace = [] ∧
    msgWaitingDeleted ∉ logLines (deleteLedger createTestBase c fuel).trace ∧
    (logLines (deleteLedger createTestBase c fuel).trace).count msgNotFound = 1 := by
  rw [deleteLedger_not_found c fuel hdel]
  decide

/-- C3, on a ledger that is already absent, with no fuel at all. -/
theorem deleteLedger_idempotent_witness :
    (deleteLedger createTestBase fakeAlreadyAbsent 0).status = Status.returned ∧
    failed (deleteLedger createTestBase fakeAlreadyAbsent 0).trace = false ∧
    describeCalls (deleteLedger createTestBase fakeAlreadyAbsent 0).trace = 0 ∧
    sleeps (deleteLedger createTestBase fakeAlreadyAbsent 0).trace = [] ∧
    msgWaitingDeleted ∉ logLines (deleteLedger createTestBase fakeAlreadyAbsent 0).trace ∧
    (logLines (deleteLedger createTestBase fakeAlreadyAbsent 0).trace).count msgNotFound = 1 :=
  deleteLedger_idempotent fakeAlreadyAbsent 0 rfl

/-- C4: for every outcome of the update call and of the delete request and
every sequence of describe responses, if `deleteLedger` returns then either
the delete request returned resource-not-found or the last describe call
issued returned resource-not-found. -/
theorem deleteLedger_returns_only_when_absent (c : Client) (fuel : Nat)
    (hret : (deleteLedger createTestBase c fuel).status = Status.returned) :
    isNotFound c.DeleteLedger = true ∨
    ∃ n, describeCalls (deleteLedger createTestBase c fuel).trace = n + 1 ∧
      isNotFound (c.DescribeLedger n).2 = true := by
  cases h : c.DeleteLedger with
  | none =>
    right
    rw [deleteLedger_success c fuel h] at hret ⊢
    exact waitForDeletionLoop_returned c fuel 0 _ (by decide) hret
  | some e =>
    cases he : e.resourceNotFound with
    | true => left; simpa [isNotFound] using he
    | false =>
      right
      rw [deleteLedger_other_error c fuel e h he] at hret ⊢
      exact waitForDeletionLoop_returned c fuel 0 _ (by simp [describeCalls, isDescribe]) hret

/-- C4, on a run that returns from the wait loop: the delete request was
accepted and the third describe call, the last one, returned not found. -/
theorem deleteLedger_returns_only_when_absent_witness :
    isNotFound fakeDeletingTwice.DeleteLedger = true ∨
    ∃ n, describeCalls (deleteLedger createTestBase fakeDeletingTwice 5).trace = n + 1 ∧
      isNotFound (fakeDeletingTwice.DescribeLedger n).2 = true :=
  deleteLedger_returns_only_when_absent fakeDeletingTwice 5 (by decide)

/-- C6: for every outcome of the update call and every describe sequence,
`deleteLedger` marks the test failed if and only if the delete request
returned an error that is not resource-not-found; in that case the fixed
error message and the text of the error are logged.  In no case does
`deleteLedger` panic. -/
theorem deleteLedger_fails_test_iff (c : Client) (fuel : Nat) :
    (failed (deleteLedger createTestBase c fuel).trace = true ↔
      ∃ e, c.DeleteLedger = some e ∧ e.resourceNotFound = false) ∧
    (∀ e, c.DeleteLedger = some e → e.resourceNotFound = false →
      msgDeletionError ∈ logLines (deleteLedger createTestBase c fuel).trace ∧
      e.text ∈ logLines (deleteLedger createTestBase c fuel).trace) ∧
    (deleteLedger createTestBase c fuel).status ≠ Status.panicked := by
  cases h : c.DeleteLedger with
  | none =>
    rw [deleteLedger_success c fuel h]
    obtain ⟨ext, he, hf, hp, _⟩ := waitForDeletionLoop_extends c fuel 0
      [Event.logged "Deleting ledger Gotest", Event.updateLedgerCall ledger false,
        Event.deleteLedgerCall ledger, Event.logged msgWaitingDeleted]
    refine ⟨?_, ?_, hp⟩
    · rw [he, failed_append, hf]
      simp [failed, isFailure]
    · intro e h2
      simp at h2
  | some e =>
    cases hnf : e.resourceNotFound with
    | true =>
      rw [deleteLedger_not_found c fuel (by simpa [h, isNotFound] using hnf)]
      refine ⟨?_, ?_, by decide⟩
      · simp [failed, isFailure, hnf]
      · intro e2 h2 h3
        simp at h2
        subst h2
        simp [hnf] at h3
    | false =>
      rw [deleteLedger_other_error c fuel e h hnf]
      obtain ⟨ext, he, hf, hp, _⟩ := waitForDeletionLoop_extends c fuel 0
        [Event.logged "Deleting ledger Gotest", Event.updateLedgerCall ledger false,
          Event.deleteLedgerCall ledger, Event.logged msgDeletionError, Event.logged e.text,
          Event.testErrorf msgFailingTest, Event.logged msgWaitingDeleted]
      refine ⟨?_, ?_, hp⟩
      · rw [he, failed_append]
        simp [failed, isFailure, hnf]
      · intro e2 h2 _
        simp at h2
        subst h2
        rw [he, logLines_append]
        simp [logLines]

/-! ## Runs on which the code departs from its description -/

/-- C5: when the create request returns an error, `createLedger` marks the
test failed through the non-aborting `assert.Nil` and then, instead of
returning, goes on into `waitForActive`: the line that opens the wait is
logged and a describe call is issued. -/
theorem createLedger_error_still_polls :
    fakeCreateRefused.CreateLedger ≠ none ∧
    failed (createLedger createTestBase fakeCreateRefused 1).trace = true ∧
    msgWaitingActive ∈ logLines (createLedger createTestBase fakeCreateRefused 1).trace ∧
    describeCalls (createLedger createTestBase fakeCreateRefused 1).trace = 1 := by
  decide

/-- C7: with `maxConcurrentTransactions = 10` and `retryLimit = 7`, the option
function of `getDriver` sets the logger, the verbosity and the concurrency
limit, and leaves the retry limit at the value the options already had. -/
theorem getDriver_leaves_retryLimit :
    (getDriver createTestBase ledger 10 7 sampleOptions).Logger = defaultLogger ∧
    (getDriver createTestBase ledger 10 7 sampleOptions).LoggerVerbosity = LogLevel.LogInfo ∧
    (getDriver createTestBase ledger 10 7 sampleOptions).MaxConcurrentTransactions = 10 ∧
    (getDriver createTestBase ledger 10 7 sampleOptions).RetryLimit = 4 ∧
    (getDriver createTestBase ledger 10 7 sampleOptions).RetryLimit ≠ 7 := by
  decide

/-- C8: when the delete request fails with an error other than
resource-not-found, `deleteLedger` marks the test failed and then, unlike its
not-found branch, which returns, goes on into `waitForDeletion` and issues a
describe call. -/
theorem deleteLedger_other_error_still_polls :
    fakeDeleteRefused.DeleteLedger ≠ none ∧
    isNotFound fakeDeleteRefused.DeleteLedger = false ∧
    failed (deleteLedger createTestBase fakeDeleteRefused 1).trace = true ∧
    msgWaitingDeleted ∈ logLines (deleteLedger createTestBase fakeDeleteRefused 1).trace ∧
    describeCalls (deleteLedger createTestBase fakeDeleteRefused 1).trace = 1 := by
  decide

/-- C9: when the first describe call returns an error and no state,
`waitForActive` panics on dereferencing the nil state right after that call:
it logs no "still creating" line, does not sleep and does not poll again. -/
theorem waitForActive_panics_on_describe_error :
    waitForActive createTestBase fakeDescribeErrorOnce 2 [] =
      { status := Status.panicked,
        trace := [Event.logged msgWaitingActive, Event.describeLedgerCall ledger] } := by
  decide

/-- C10: when the first describe call already returns resource-not-found,
`waitForDeletion` logs one "still deleting" line before the "deleted" line;
after two polls that find the ledger and a third that does not, it has logged
three "still deleting" lines. -/
theorem waitForDeletion_logs_still_deleting_on_last_poll :
    logLines (waitForDeletion createTestBase fakeAlreadyAbsent 1 []).trace
      = [msgWaitingDeleted, msgStillDeleting, msgDeleted] ∧
    (logLines (waitForDeletion createTestBase fakeDeletingTwice 3 []).trace).count
      msgStillDeleting = 3 := by
  decide

end Integration
